import Mathlib

/-!
# Verification of nomad-otel-metrics-scraper (src/main.rs)

Shallow embedding of the scraper's data model and operations:

* `JobScaleStatus`, `JobListEntry`, `JobScale`, `StatusCount` — the serde
  structs of `main.rs` (lines 206-237).  The Rust integer fields are `u32`
  (resp. `u64`); all arithmetic here stays far below `2^32`, so they are
  modelled as `Nat`.  The `up_ratio : f64` field always holds the exact
  `f64` image of a `u32` quotient (Rust computes `healthy / desired` in
  `u32` and then converts with `Into<f64>`, which is exact below `2^53`),
  so it is modelled as the rational image of that `Nat` quotient.
* `statusCount` — the `StatusCount` construction in the poll loop
  (lines 79-83); Rust `u32` division panics when the divisor is zero, so
  the embedding is `Option`-valued with `none` = panic.
* `Store`, `insertStore`, `lookupStore` — the mutex-guarded
  `HashMap<String, StatusCount>` (line 57) with `HashMap::insert` /
  lookup semantics, modelled as an association list with at most one
  entry per key.
* `getStatusesForJobs` — the two-step fetch (lines 180-204) over an
  oracle of HTTP responses; a response is `none` for a transport-level
  failure, otherwise carries its HTTP status code and the result of
  deserializing its body (`reqwest`'s `.json()` never looks at the
  status code, and the source never calls `error_for_status`).
* trace models for the `tokio::select!` loop head (lines 63-93), the
  metric-observer callback (lines 121-141) and the ctrl-c handler
  (lines 95-119).
-/

namespace NomadScraper

/-- Struct `JobScaleStatus` (main.rs lines 218-230): the per-task-group scale
status deserialized from `GET /v1/job/{name}/scale`; fields `Desired`,
`Healthy`, `Placed`, `Running`, `Unhealthy`, all `u32`. -/
structure JobScaleStatus where
  desired : Nat
  healthy : Nat
  placed : Nat
  running : Nat
  unhealthy : Nat
  deriving Repr, DecidableEq

/-- Struct `StatusCount` (main.rs lines 232-237): the published measures.
`up`/`down` are `u64` in Rust; `up_ratio` is `f64`, always the exact
image of a `u32` quotient, modelled as a rational. -/
structure StatusCount where
  up : Nat
  down : Nat
  up_ratio : ℚ
  deriving Repr, DecidableEq

/-- Rust `u32` division: panics (`none`) when the divisor is zero,
otherwise truncating integer division. -/
def checkedDiv (a b : Nat) : Option Nat :=
  if b = 0 then none else some (a / b)

/-- The `StatusCount` construction in the poll loop (main.rs lines
79-83): `up = healthy`, `down = unhealthy`,
`up_ratio = (healthy / desired).into()` where the division is `u32`
integer division (truncating), converted exactly to `f64`.  `none`
models the division-by-zero panic when `desired = 0`. -/
def statusCount (s : JobScaleStatus) : Option StatusCount :=
  (checkedDiv s.healthy s.desired).map fun q =>
    { up := s.healthy, down := s.unhealthy, up_ratio := (q : ℚ) }

/-- The transformer as the specification words it (spec §4.2 and C1):
`upRatio = Healthy / Desired` as an exact field (rational) ratio. -/
def statusCountSpec (s : JobScaleStatus) : StatusCount :=
  { up := s.healthy, down := s.unhealthy,
    up_ratio := (s.healthy : ℚ) / (s.desired : ℚ) }

/-! ## The shared store

`Arc<Mutex<HashMap<String, StatusCount>>>` (main.rs line 57).  The map is
modelled as an association list with at most one entry per key when built
from `emptyStore`; `insertStore` replaces the entry for an existing key
(`HashMap::insert`) and `lookupStore` finds the entry for a key. -/

/-- The shared `HashMap<String, StatusCount>` contents. -/
abbrev Store := List (String × StatusCount)

/-- The empty map a fresh store starts from (main.rs line 57). -/
def emptyStore : Store := []

/-- Operation `HashMap::insert` (main.rs line 86): replace the value at an existing
key, otherwise add the key. -/
def insertStore (k : String) (v : StatusCount) : Store → Store
  | [] => [(k, v)]
  | (k', v') :: rest =>
      if k' = k then (k, v) :: rest else (k', v') :: insertStore k v rest

/-- Map lookup: the value stored at key `k`, if any. -/
def lookupStore (k : String) : Store → Option StatusCount
  | [] => none
  | (k', v') :: rest => if k' = k then some v' else lookupStore k rest

/-- A sequence of upserts applied in order (the poller's writes). -/
def applyUpserts (store : Store) (us : List (String × StatusCount)) : Store :=
  us.foldl (fun m p => insertStore p.1 p.2 m) store

/-- The last sample upserted for key `k` in the sequence `us`, if any. -/
def lastUpsert (us : List (String × StatusCount)) (k : String) :
    Option StatusCount :=
  (us.reverse.find? fun p => p.1 = k).map Prod.snd

/-! ## One poll cycle's store update

Main.rs lines 75-88: the loop takes the mutex once, then for each
`(job_name, status)` pair builds the `StatusCount` (which panics when
`desired = 0`) and inserts it.  The boolean result records whether the
body panicked; on panic the inserts already performed remain. -/

/-- The locked insert loop of one poll cycle (main.rs lines 77-87).
Returns `(panicked, store)`. -/
def applyStatuses (store : Store) :
    List (String × JobScaleStatus) → Bool × Store
  | [] => (false, store)
  | (name, st) :: rest =>
      match statusCount st with
      | none => (true, store)
      | some sc => applyStatuses (insertStore name sc store) rest

/-- The fetch errors of §7 collapsed to one kind, as in the source
(`anyhow::Error` out of `reqwest`/serde). -/
inductive FetchError where
  | transport
  | schema
  deriving Repr, DecidableEq

/-- One poll-loop body (main.rs lines 71-88): `expect` the fetch result
(panic on error, before the lock is taken), then run the locked insert
loop.  Returns `(panicked, store)`. -/
def pollCycle (store : Store)
    (fetch : Except FetchError (List (String × JobScaleStatus))) :
    Bool × Store :=
  match fetch with
  | .error _ => (true, store)
  | .ok statuses => applyStatuses store statuses

/-! ## The fetcher (`get_statuses_for_jobs`, main.rs lines 180-204)

The network is an oracle: each GET either fails at the transport level
(`none`) or yields an `HttpResponse` carrying the HTTP status code and
the result of deserializing the body against the expected schema
(`none` when the body does not match).  `reqwest`'s
`send().await?.json::<T>().await?` pipeline propagates a transport
failure and a deserialization failure, and never inspects the status
code (the source has no `error_for_status` call). -/

/-- One HTTP response: its status code and its body's deserialization
result against the schema `α`. -/
structure HttpResponse (α : Type) where
  status : Nat
  parsed : Option α

/-- An element of the `GET /v1/jobs` response array (main.rs lines
206-210): `{ "Name": string }`. -/
structure JobListEntry where
  name : String
  deriving Repr, DecidableEq

/-- The `GET /v1/job/{name}/scale` response body (main.rs lines
212-216): `TaskGroups`, a map from group name to `JobScaleStatus`,
modelled as its entry list in iteration order. -/
structure JobScale where
  task_groups : List (String × JobScaleStatus)
  deriving Repr, DecidableEq

/-- Pipeline `client.get(..).send().await?.json::<α>().await?`: transport failure
and body-deserialization failure become errors; the status code is never
examined. -/
def getJson {α : Type} : Option (HttpResponse α) → Except FetchError α
  | none => .error .transport
  | some resp =>
      match resp.parsed with
      | none => .error .schema
      | some v => .ok v

/-- Whether the request pipeline fails for a response: transport failure
or deserialization failure. -/
def reqFailed {α : Type} : Option (HttpResponse α) → Bool
  | none => true
  | some resp => resp.parsed.isNone

/-- The per-job half of `get_statuses_for_jobs` (main.rs lines 188-202):
for each entry, fetch its scale status and push all its task groups in
order. -/
def collectStatuses (scaleResp : String → Option (HttpResponse JobScale)) :
    List JobListEntry → Except FetchError (List (String × JobScaleStatus))
  | [] => .ok []
  | e :: rest =>
      match getJson (scaleResp e.name) with
      | .error err => .error err
      | .ok js =>
          match collectStatuses scaleResp rest with
          | .error err => .error err
          | .ok tail => .ok (js.task_groups ++ tail)

/-- Function `get_statuses_for_jobs` (main.rs lines 180-204): fetch the job list,
then for each job its scale status, flattening all task groups. -/
def getStatusesForJobs
    (jobsResp : Option (HttpResponse (List JobListEntry)))
    (scaleResp : String → Option (HttpResponse JobScale)) :
    Except FetchError (List (String × JobScaleStatus)) :=
  match getJson jobsResp with
  | .error err => .error err
  | .ok entries => collectStatuses scaleResp entries

/-- The scale value that a successful request for job `name` carries
(defaulting to an empty group map, used only under a success
hypothesis). -/
def scaleOf (scaleResp : String → Option (HttpResponse JobScale))
    (name : String) : JobScale :=
  match getJson (scaleResp name) with
  | .ok js => js
  | .error _ => ⟨[]⟩

/-- Whether any request made by `get_statuses_for_jobs` fails: the job
list request, or some listed job's scale request. -/
def anyReqFailed
    (jobsResp : Option (HttpResponse (List JobListEntry)))
    (scaleResp : String → Option (HttpResponse JobScale)) : Bool :=
  match getJson jobsResp with
  | .error _ => true
  | .ok entries => entries.any fun e => reqFailed (scaleResp e.name)

/-- The failure condition as the specification words it (spec §4.1 and
C7): a request also fails when it returns a non-success HTTP status. -/
def reqFailedSpec {α : Type} : Option (HttpResponse α) → Bool
  | none => true
  | some resp =>
      resp.parsed.isNone || decide (resp.status < 200) ||
        decide (300 ≤ resp.status)

/-! ## The poll loop head (`tokio::select!`, main.rs lines 63-93)

Each iteration races `status_checker_token.cancelled()` against
`tokio::time::sleep(interval)`; whichever future completes first wins.
A loop run is driven by the sequence of select outcomes; the body
(fetch + transform + store) is abstracted to one `fetch` event.  When
cancellation is signalled while the sleep is still pending, the
`cancelled()` branch completes first and thus wins the race, so that
iteration's outcome is `cancelled`. -/

/-- Which branch of the `tokio::select!` resolved at a loop head. -/
inductive SelectOutcome where
  | cancelled
  | sleepElapsed
  deriving Repr, DecidableEq

/-- An observable event of the poll loop. -/
inductive LoopEvent where
  | fetch
  | exit
  deriving Repr, DecidableEq

/-- The poll loop (main.rs lines 63-93) driven by its select outcomes:
on `cancelled` it returns (no further iteration); on `sleepElapsed` it
performs the cycle body (one `fetch`) and loops. -/
def statusLoopTrace : List SelectOutcome → List LoopEvent
  | [] => []
  | .cancelled :: _ => [.exit]
  | .sleepElapsed :: rest => .fetch :: statusLoopTrace rest

/-! ## The metric-observer callback (main.rs lines 121-141)

The closure locks the map, iterates its entries emitting three
observations per entry, and drops the guard only when the closure ends:
the trace below is `lockAcquire`, then all emissions, then
`lockRelease`. -/

/-- An observable event of the registered callback. -/
inductive CallbackEvent where
  | lockAcquire
  | observeUp (group : String) (v : Nat)
  | observeDown (group : String) (v : Nat)
  | observeRatio (group : String) (v : ℚ)
  | lockRelease
  deriving Repr, DecidableEq

/-- The `observer.observe_*` calls of the iteration body (main.rs lines
129-139), three per stored entry, in store iteration order. -/
def emitEvents : Store → List CallbackEvent
  | [] => []
  | (name, sc) :: rest =>
      .observeUp name sc.up :: .observeDown name sc.down ::
        .observeRatio name sc.up_ratio :: emitEvents rest

/-- The callback closure (main.rs lines 127-140): `lock()`, emit every
entry's observations, and release the guard at the closure's end. -/
def observerCallback (store : Store) : List CallbackEvent :=
  .lockAcquire :: (emitEvents store ++ [.lockRelease])

/-- Whether a callback event is one of the `observe_*` emissions. -/
def isObserve : CallbackEvent → Bool
  | .observeUp _ _ => true
  | .observeDown _ _ => true
  | .observeRatio _ _ => true
  | _ => false

/-- Whether a callback event is the lock release. -/
def isRelease : CallbackEvent → Bool
  | .lockRelease => true
  | _ => false

/-- The number of emissions a trace performs while the lock is still
held — emissions before the first `lockRelease`. -/
def observesUnderLock (tr : List CallbackEvent) : Nat :=
  (tr.takeWhile fun e => !isRelease e).countP fun e => isObserve e

/-! ## Reachable snapshots (mutex interleavings, main.rs lines 75-88
and 127-140)

The writer's poll cycle and the reader's callback each consist of
critical sections under the same mutex, so the reader's snapshot can
occur only at the boundaries between the writer's critical sections:
before the first block, between two blocks, or after the last.
`reachableSnapshots store blocks` lists exactly the store states at
those boundaries.  In the source, one poll cycle is a SINGLE critical
section containing every insert of the cycle (one `lock()` at line 77
around the whole `for` loop), i.e. `blocks = [upserts]`. -/

/-- The store states a concurrent locked reader can observe while a
writer runs the given sequence of locked insert blocks. -/
def reachableSnapshots (store : Store) :
    List (List (String × StatusCount)) → List Store
  | [] => [store]
  | b :: rest => store :: reachableSnapshots (applyUpserts store b) rest

/-- One poll cycle's critical-section structure in the source: all of
the cycle's upserts inside one locked block (main.rs lines 75-88). -/
def cycleBlocks (upserts : List (String × StatusCount)) :
    List (List (String × StatusCount)) :=
  [upserts]

/-! ## The ctrl-c handler (main.rs lines 95-119) -/

/-- An observable action of the shutdown task. -/
inductive ShutdownEvent where
  | cancel
  | forceFlush
  | shutdown
  deriving Repr, DecidableEq

/-- The ctrl-c handler task (main.rs lines 95-119): on successful signal
registration, cancel the token, then `force_flush()?` and — when the
flush succeeds — `shutdown()?`; when registration fails, log and cancel
the token. -/
def ctrlcHandler (registration : Except String Unit) (flushOk : Bool) :
    List ShutdownEvent :=
  match registration with
  | .ok _ =>
      if flushOk then [.cancel, .forceFlush, .shutdown]
      else [.cancel, .forceFlush]
  | .error _ => [.cancel]

/-! ## Store lemmas -/

theorem lookupStore_insertStore (k k' : String) (v : StatusCount)
    (s : Store) :
    lookupStore k' (insertStore k v s) =
      if k' = k then some v else lookupStore k' s := by
  induction s with
  | nil =>
      by_cases h : k' = k
      · subst h; simp [insertStore, lookupStore]
      · simp [insertStore, lookupStore, h, Ne.symm h]
  | cons hd tl ih =>
      obtain ⟨a, b⟩ := hd
      by_cases ha : a = k
      · subst ha
        by_cases h : k' = a
        · subst h; simp [insertStore, lookupStore]
        · simp [insertStore, lookupStore, h, Ne.symm h]
      · by_cases hk : a = k'
        · subst hk
          have : ¬ a = k := ha
          simp [insertStore, lookupStore, ha, Ne.symm ha, this]
        · simp [insertStore, lookupStore, ha, hk, ih]

theorem lastUpsert_nil (k : String) : lastUpsert [] k = none := rfl

theorem lastUpsert_cons (p : String × StatusCount)
    (us : List (String × StatusCount)) (k : String) :
    lastUpsert (p :: us) k =
      (lastUpsert us k).or (if p.1 = k then some p.2 else none) := by
  unfold lastUpsert
  rw [List.reverse_cons, List.find?_append]
  cases hfind : us.reverse.find? (fun q => q.1 = k) with
  | none =>
      by_cases h : p.1 = k <;>
        simp [hfind, Option.or, List.find?, h]
  | some q => simp [hfind, Option.or]

theorem applyUpserts_nil (store : Store) : applyUpserts store [] = store :=
  rfl

theorem applyUpserts_cons (store : Store) (p : String × StatusCount)
    (us : List (String × StatusCount)) :
    applyUpserts store (p :: us) =
      applyUpserts (insertStore p.1 p.2 store) us := rfl

theorem applyUpserts_lookup (us : List (String × StatusCount))
    (store : Store) (k : String) :
    lookupStore k (applyUpserts store us) =
      (lastUpsert us k).or (lookupStore k store) := by
  induction us generalizing store with
  | nil => simp [applyUpserts, lastUpsert, Option.or]
  | cons p rest ih =>
      rw [applyUpserts_cons, ih, lastUpsert_cons, Option.or_assoc]
      congr 1
      rw [lookupStore_insertStore]
      by_cases h : k = p.1
      · simp [h, Option.or]
      · simp [h, Ne.symm h, Option.or]

/-! ## Claims -/

/-- C1: the spec says the transformer computes
`upRatio = Healthy / Desired` as a floating-point ratio, giving `0.7`
for `Desired=10, Healthy=7, Unhealthy=3`.  The source computes the
quotient in `u32` integer arithmetic before converting to `f64`
(main.rs line 82), so at that very input it publishes
`up = 7, down = 3` but `up_ratio = 0`, not `0.7` — contradicting the
code's own gauge description ("The ratio of working relative to
expected count"). -/
theorem statusCount_truncates_ratio :
    statusCount ⟨10, 7, 10, 7, 3⟩ =
      some { up := 7, down := 3, up_ratio := 0 } ∧
    statusCountSpec ⟨10, 7, 10, 7, 3⟩ =
      { up := 7, down := 3, up_ratio := 7 / 10 } ∧
    (statusCount ⟨10, 7, 10, 7, 3⟩).map StatusCount.up_ratio ≠
      some ((7 : ℚ) / 10) := by
  refine ⟨by decide, by simp [statusCountSpec], ?_⟩
  simp [statusCount, checkedDiv]
  norm_num

/-- C2 counterexample: the claim says transforming a status with
`Desired = 0` never crashes; in the source the `u32` division
`healthy / desired` (main.rs line 82) is unguarded and panics when
`desired = 0` — at `Desired=0, Healthy=0` the transformation aborts
(`none` models the panic). -/
theorem statusCount_zero_desired_panics :
    statusCount ⟨0, 0, 0, 0, 0⟩ = none := by decide

/-- C2 amended: for every raw status with `Desired = 0`, the
transformation panics on the division by zero (no zero-policy exists),
and the poll-cycle insert loop that reaches such a status aborts,
leaving the store as it was at that point. -/
theorem statusCount_zero_desired_panics_forall (s : JobScaleStatus)
    (h : s.desired = 0) :
    statusCount s = none ∧
    ∀ (store : Store) (name : String)
      (rest : List (String × JobScaleStatus)),
      applyStatuses store ((name, s) :: rest) = (true, store) := by
  have hnone : statusCount s = none := by
    simp [statusCount, checkedDiv, h]
  exact ⟨hnone, fun store name rest => by simp [applyStatuses, hnone]⟩

/-- Witness for the C2 amended theorem at `Desired=0, Healthy=0`. -/
theorem statusCount_zero_desired_panics_forall_witness :
    statusCount ⟨0, 0, 0, 0, 0⟩ = none ∧
    applyStatuses emptyStore [("web", ⟨0, 0, 0, 0, 0⟩)] =
      (true, emptyStore) := by
  obtain ⟨h1, h2⟩ :=
    statusCount_zero_desired_panics_forall ⟨0, 0, 0, 0, 0⟩ rfl
  exact ⟨h1, h2 emptyStore "web" []⟩

/-- C3: when the fetch of a poll cycle returns an error, the `expect`
at main.rs line 73 panics before the store lock is ever taken: the
cycle aborts (`true`) and the store is exactly what it was — no metric
of the failed cycle is stored. -/
theorem pollCycle_error_aborts_store_unchanged (store : Store)
    (e : FetchError) :
    pollCycle store (Except.error e) = (true, store) := rfl

/-- C5: after any sequence of upserts applied from the empty store, a
snapshot maps every key to exactly the last sample upserted for that
key — and to nothing when the key was never upserted (no other keys
appear). -/
theorem snapshot_lastWriteWins (us : List (String × StatusCount))
    (k : String) :
    lookupStore k (applyUpserts emptyStore us) = lastUpsert us k := by
  rw [applyUpserts_lookup]
  cases h : lastUpsert us k <;> simp [emptyStore, lookupStore, Option.or]

/-! ## Callback lock-scope lemmas -/

theorem lockRelease_not_mem_emitEvents (store : Store) :
    CallbackEvent.lockRelease ∉ emitEvents store := by
  induction store with
  | nil => simp [emitEvents]
  | cons hd tl ih =>
      obtain ⟨n, sc⟩ := hd
      simp [emitEvents, ih]

theorem isRelease_eq_false (e : CallbackEvent)
    (h : e ≠ CallbackEvent.lockRelease) : isRelease e = false := by
  cases e <;> first | rfl | exact absurd rfl h

theorem takeWhile_upToRelease (l : List CallbackEvent)
    (h : CallbackEvent.lockRelease ∉ l) :
    (l ++ [CallbackEvent.lockRelease]).takeWhile
      (fun e => !isRelease e) = l := by
  induction l with
  | nil => simp [List.takeWhile_cons, isRelease]
  | cons hd tl ih =>
      simp only [List.mem_cons, not_or] at h
      rw [List.cons_append, List.takeWhile_cons,
        isRelease_eq_false hd (Ne.symm h.1)]
      simp [ih h.2]

theorem emitEvents_countP (store : Store) :
    (emitEvents store).countP (fun e => isObserve e) = 3 * store.length := by
  induction store with
  | nil => rfl
  | cons hd tl ih =>
      obtain ⟨n, sc⟩ := hd
      rw [show emitEvents ((n, sc) :: tl) =
            CallbackEvent.observeUp n sc.up ::
              CallbackEvent.observeDown n sc.down ::
                CallbackEvent.observeRatio n sc.up_ratio ::
                  emitEvents tl from rfl,
        List.countP_cons, List.countP_cons, List.countP_cons, ih]
      simp [isObserve]
      ring

/-- C4 counterexample: the claim says the callback releases the store
lock before any `observe_*` emission; in the source (main.rs lines
127-140) the `MutexGuard` lives until the closure ends, so with a
single stored entry all three emissions happen before the lock
release. -/
theorem observerCallback_emits_under_lock :
    observesUnderLock (observerCallback [("web", ⟨4, 0, 1⟩)]) = 3 := by
  decide

/-- C4 amended: the callback acquires the lock once, performs every
emission (three per stored entry) while still holding it, and releases
the lock only as its last action. -/
theorem observerCallback_lock_scope (store : Store) :
    observesUnderLock (observerCallback store) = 3 * store.length ∧
    (observerCallback store).getLast? = some CallbackEvent.lockRelease := by
  constructor
  · unfold observesUnderLock observerCallback
    rw [List.takeWhile_cons,
      show isRelease CallbackEvent.lockAcquire = false from rfl]
    simp only [Bool.not_false, if_true]
    rw [takeWhile_upToRelease _ (lockRelease_not_mem_emitEvents store),
      List.countP_cons, emitEvents_countP]
    simp [isObserve]
  · unfold observerCallback
    rw [← List.cons_append, List.getLast?_concat]

/-- C6: whenever the cancellation branch of the `tokio::select!` wins
an iteration's race (in particular when cancellation is signalled while
the interval sleep is still pending, making `cancelled()` the first
future to complete), the loop exits at that loop head: the trace is
exactly one `fetch` per completed sleep before the cancellation and
then `exit`, with no fetch afterwards whatever outcomes would follow. -/
theorem statusLoop_no_fetch_after_cancel (n : Nat)
    (post : List SelectOutcome) :
    statusLoopTrace
        (List.replicate n SelectOutcome.sleepElapsed ++
          SelectOutcome.cancelled :: post) =
      List.replicate n LoopEvent.fetch ++ [LoopEvent.exit] := by
  induction n with
  | zero => simp [statusLoopTrace]
  | succ m ih => simp [List.replicate_succ, statusLoopTrace, ih]

/-- C8: the ctrl-c handler always signals cancellation first — also
when registering the interrupt listener fails — and on a received
interrupt with a succeeding flush it performs exactly cancel, then
force-flush, then shutdown, in that order (main.rs lines 95-119). -/
theorem ctrlcHandler_order (reg : Except String Unit) (flushOk : Bool) :
    (ctrlcHandler reg flushOk).head? = some ShutdownEvent.cancel ∧
    (∀ u, reg = Except.ok u → flushOk = true →
      ctrlcHandler reg flushOk =
        [ShutdownEvent.cancel, ShutdownEvent.forceFlush,
          ShutdownEvent.shutdown]) := by
  cases reg <;> cases flushOk <;> simp [ctrlcHandler]

/-- Witness for C8 at a received interrupt with a succeeding flush, and
at a failed signal registration. -/
theorem ctrlcHandler_order_witness :
    ctrlcHandler (Except.ok ()) true =
      [ShutdownEvent.cancel, ShutdownEvent.forceFlush,
        ShutdownEvent.shutdown] ∧
    (ctrlcHandler (Except.error "no signal handler") false).head? =
      some ShutdownEvent.cancel :=
  ⟨(ctrlcHandler_order (Except.ok ()) true).2 () rfl rfl,
    (ctrlcHandler_order (Except.error "no signal handler") false).1⟩

/-- C10 counterexample: the claim says the mid-cycle store (first group
upserted, second not yet) is a reachable snapshot; in the source the
whole insert loop of a cycle runs inside one critical section (main.rs
lines 75-88), so on a first run upserting `g1` then `g2` the only
reachable snapshots are the empty store and the fully updated store —
the mid-cycle state (which indeed holds `g1`'s new sample and no entry
for `g2`) is not among them. -/
theorem midCycle_snapshot_unreachable :
    ([("g1", ⟨4, 0, 1⟩)] : Store) ∉
        reachableSnapshots emptyStore
          (cycleBlocks [("g1", ⟨4, 0, 1⟩), ("g2", ⟨2, 1, 0⟩)]) ∧
    lookupStore "g1" [("g1", ⟨4, 0, 1⟩)] = some ⟨4, 0, 1⟩ ∧
    lookupStore "g2" [("g1", ⟨4, 0, 1⟩)] = none := by
  decide

/-- C10 amended: one poll cycle's upserts form a single critical
section, so a concurrent snapshot observes either the store from
before the cycle or the store with all of the cycle's upserts applied;
no per-key intermediate state is observable (cross-key atomicity holds
for the whole cycle, which subsumes per-sample atomicity). -/
theorem reachableSnapshots_cycle (store : Store)
    (us : List (String × StatusCount)) (s : Store)
    (h : s ∈ reachableSnapshots store (cycleBlocks us)) :
    s = store ∨ s = applyUpserts store us := by
  simpa [reachableSnapshots, cycleBlocks] using h

/-- Witness for the C10 amended theorem: the pre-cycle empty store is a
reachable snapshot of a one-upsert cycle. -/
theorem reachableSnapshots_cycle_witness :
    emptyStore = emptyStore ∨
      emptyStore = applyUpserts emptyStore [("g1", ⟨4, 0, 1⟩)] :=
  reachableSnapshots_cycle emptyStore [("g1", ⟨4, 0, 1⟩)] emptyStore
    (by simp [reachableSnapshots, cycleBlocks])

/-! ## Fetcher lemmas -/

theorem getJson_ok_of_not_failed {α : Type} (r : Option (HttpResponse α))
    (h : reqFailed r = false) : ∃ v, getJson r = Except.ok v := by
  cases r with
  | none => simp [reqFailed] at h
  | some resp =>
      cases hp : resp.parsed with
      | none => simp [reqFailed, hp] at h
      | some v => exact ⟨v, by simp [getJson, hp]⟩

theorem getJson_error_of_failed {α : Type} (r : Option (HttpResponse α))
    (h : reqFailed r = true) : ∃ e, getJson r = Except.error e := by
  cases r with
  | none => exact ⟨.transport, rfl⟩
  | some resp =>
      cases hp : resp.parsed with
      | none => exact ⟨.schema, by simp [getJson, hp]⟩
      | some v => simp [reqFailed, hp] at h

theorem scaleOf_eq_of_getJson_ok
    (s : String → Option (HttpResponse JobScale)) (name : String)
    (js : JobScale) (h : getJson (s name) = Except.ok js) :
    scaleOf s name = js := by
  simp [scaleOf, h]

theorem collectStatuses_ok (s : String → Option (HttpResponse JobScale))
    (entries : List JobListEntry)
    (h : ∀ e ∈ entries, reqFailed (s e.name) = false) :
    collectStatuses s entries =
      Except.ok (entries.flatMap fun e => (scaleOf s e.name).task_groups) := by
  induction entries with
  | nil => rfl
  | cons e rest ih =>
      obtain ⟨js, hjs⟩ :=
        getJson_ok_of_not_failed _ (h e (List.mem_cons_self e rest))
      rw [show collectStatuses s (e :: rest) =
            match getJson (s e.name) with
            | .error err => .error err
            | .ok js =>
                match collectStatuses s rest with
                | .error err => .error err
                | .ok tail => .ok (js.task_groups ++ tail) from rfl,
        hjs, ih fun x hx => h x (List.mem_cons_of_mem e hx)]
      simp [scaleOf_eq_of_getJson_ok s e.name js hjs]

theorem collectStatuses_error (s : String → Option (HttpResponse JobScale))
    (entries : List JobListEntry)
    (h : entries.any (fun e => reqFailed (s e.name)) = true) :
    ∃ err, collectStatuses s entries = Except.error err := by
  induction entries with
  | nil => simp at h
  | cons e rest ih =>
      cases hhead : reqFailed (s e.name) with
      | true =>
          obtain ⟨err, herr⟩ := getJson_error_of_failed _ hhead
          exact ⟨err, by
            rw [show collectStatuses s (e :: rest) =
                  match getJson (s e.name) with
                  | .error err => .error err
                  | .ok js =>
                      match collectStatuses s rest with
                      | .error err => .error err
                      | .ok tail => .ok (js.task_groups ++ tail) from rfl,
              herr]⟩
      | false =>
          obtain ⟨js, hjs⟩ := getJson_ok_of_not_failed _ hhead
          have hrest : rest.any (fun e => reqFailed (s e.name)) = true := by
            simp only [List.any_cons, hhead, Bool.false_or] at h
            exact h
          obtain ⟨err, herr⟩ := ih hrest
          exact ⟨err, by
            rw [show collectStatuses s (e :: rest) =
                  match getJson (s e.name) with
                  | .error err => .error err
                  | .ok js =>
                      match collectStatuses s rest with
                      | .error err => .error err
                      | .ok tail => .ok (js.task_groups ++ tail) from rfl,
              hjs, herr]⟩

/-- C7 counterexample: the claim says `get_statuses_for_jobs` fails
when a request returns a non-success HTTP status; the source never
inspects the status code (no `error_for_status`), so a `500` response
for `GET /v1/jobs` whose body deserializes as the empty job array
yields success (`Ok([])`) even though the specification's failure
condition holds for it. -/
theorem getStatuses_ignores_http_status :
    getStatusesForJobs (some ⟨500, some []⟩) (fun _ => none) =
      Except.ok [] ∧
    reqFailedSpec
        (some (⟨500, some []⟩ : HttpResponse (List JobListEntry))) =
      true := by
  exact ⟨rfl, rfl⟩

/-- C7 amended: `get_statuses_for_jobs` fails iff some performed
request fails at the transport level or its body fails to deserialize
against the expected schema — a non-success HTTP status alone does not
cause failure — and otherwise it returns the flattened sequence of
(group name, status) pairs covering all task groups of all listed
jobs, in job-list order. -/
theorem getStatuses_error_characterization
    (j : Option (HttpResponse (List JobListEntry)))
    (s : String → Option (HttpResponse JobScale)) :
    ((∃ err, getStatusesForJobs j s = Except.error err) ↔
      anyReqFailed j s = true) ∧
    (∀ entries, getJson j = Except.ok entries →
      anyReqFailed j s = false →
      getStatusesForJobs j s =
        Except.ok
          (entries.flatMap fun e => (scaleOf s e.name).task_groups)) := by
  constructor
  · cases hj : getJson j with
    | error e =>
        constructor
        · intro _; simp [anyReqFailed, hj]
        · intro _
          exact ⟨e, by rw [show getStatusesForJobs j s =
              match getJson j with
              | .error err => .error err
              | .ok entries => collectStatuses s entries from rfl, hj]⟩
    | ok entries =>
        have hmain : getStatusesForJobs j s = collectStatuses s entries := by
          rw [show getStatusesForJobs j s =
              match getJson j with
              | .error err => .error err
              | .ok entries => collectStatuses s entries from rfl, hj]
        cases hany : entries.any (fun e => reqFailed (s e.name)) with
        | true =>
            obtain ⟨err, herr⟩ := collectStatuses_error s entries hany
            constructor
            · intro _; simp [anyReqFailed, hj, hany]
            · intro _; exact ⟨err, hmain.trans herr⟩
        | false =>
            have hok := collectStatuses_ok s entries
              (fun e he => by
                have := List.any_eq_false.mp hany e he
                simpa using this)
            constructor
            · rintro ⟨err, herr⟩
              rw [hmain, hok] at herr
              exact absurd herr (by simp)
            · intro hfail
              simp [anyReqFailed, hj, hany] at hfail
  · intro entries hentries hfail
    have hany : entries.any (fun e => reqFailed (s e.name)) = false := by
      simpa [anyReqFailed, hentries] using hfail
    have hok := collectStatuses_ok s entries
      (fun e he => by
        have := List.any_eq_false.mp hany e he
        simpa using this)
    rw [show getStatusesForJobs j s =
        match getJson j with
        | .error err => .error err
        | .ok entries => collectStatuses s entries from rfl,
      hentries]
    exact hok

/-- Witness for the C7 amended theorem: one job `web` whose scale
request succeeds with a single group, fetched end to end. -/
theorem getStatuses_error_characterization_witness :
    getStatusesForJobs (some ⟨200, some [⟨"web"⟩]⟩)
        (fun _ => some ⟨200, some ⟨[("web", ⟨4, 4, 4, 4, 0⟩)]⟩⟩) =
      Except.ok [("web", ⟨4, 4, 4, 4, 0⟩)] := by
  have h :=
    (getStatuses_error_characterization (some ⟨200, some [⟨"web"⟩]⟩)
        (fun _ => some ⟨200, some ⟨[("web", ⟨4, 4, 4, 4, 0⟩)]⟩⟩)).2
      [⟨"web"⟩] rfl rfl
  simpa [scaleOf, getJson] using h

/-- C9: the store is keyed by the task-group name alone.  For two
distinct jobs `job1` and `job2` each containing a task group of the
same name `g`, one poll cycle leaves a single store entry for `g`,
holding the transformed sample of the pair that appears later in the
flattened sequence (here `job2`'s); `job1`'s sample is silently
overwritten. -/
theorem sameGroupName_lastJob_wins (g : String)
    (st1 st2 : JobScaleStatus) (h1 : st1.desired ≠ 0)
    (h2 : st2.desired ≠ 0) :
    ∃ sc2, statusCount st2 = some sc2 ∧
      pollCycle emptyStore
          (getStatusesForJobs
            (some ⟨200, some [⟨"job1"⟩, ⟨"job2"⟩]⟩)
            (fun n =>
              if n = "job1" then some ⟨200, some ⟨[(g, st1)]⟩⟩
              else if n = "job2" then some ⟨200, some ⟨[(g, st2)]⟩⟩
              else none)) =
        (false, [(g, sc2)]) := by
  obtain ⟨sc1, hsc1⟩ : ∃ sc, statusCount st1 = some sc := by
    simp [statusCount, checkedDiv, h1]
  obtain ⟨sc2, hsc2⟩ : ∃ sc, statusCount st2 = some sc := by
    simp [statusCount, checkedDiv, h2]
  refine ⟨sc2, hsc2, ?_⟩
  have hfetch :
      getStatusesForJobs (some ⟨200, some [⟨"job1"⟩, ⟨"job2"⟩]⟩)
          (fun n =>
            if n = "job1" then some ⟨200, some ⟨[(g, st1)]⟩⟩
            else if n = "job2" then some ⟨200, some ⟨[(g, st2)]⟩⟩
            else none) =
        Except.ok [(g, st1), (g, st2)] := by
    rfl
  rw [hfetch]
  show applyStatuses emptyStore [(g, st1), (g, st2)] = (false, [(g, sc2)])
  rw [show applyStatuses emptyStore [(g, st1), (g, st2)] =
      match statusCount st1 with
      | none => (true, emptyStore)
      | some sc => applyStatuses (insertStore g sc emptyStore) [(g, st2)]
    from rfl, hsc1]
  show applyStatuses (insertStore g sc1 emptyStore) [(g, st2)] =
    (false, [(g, sc2)])
  rw [show applyStatuses (insertStore g sc1 emptyStore) [(g, st2)] =
      match statusCount st2 with
      | none => (true, insertStore g sc1 emptyStore)
      | some sc =>
          applyStatuses (insertStore g sc (insertStore g sc1 emptyStore)) []
    from rfl, hsc2]
  show applyStatuses (insertStore g sc2 (insertStore g sc1 emptyStore)) [] =
    (false, [(g, sc2)])
  simp [applyStatuses, insertStore, emptyStore]

/-- Witness for C9 with concrete statuses for the two jobs. -/
theorem sameGroupName_lastJob_wins_witness :
    ∃ sc2, statusCount ⟨2, 1, 2, 1, 1⟩ = some sc2 ∧
      pollCycle emptyStore
          (getStatusesForJobs
            (some ⟨200, some [⟨"job1"⟩, ⟨"job2"⟩]⟩)
            (fun n =>
              if n = "job1" then some ⟨200, some ⟨[("web", ⟨4, 4, 4, 4, 0⟩)]⟩⟩
              else if n = "job2" then
                some ⟨200, some ⟨[("web", ⟨2, 1, 2, 1, 1⟩)]⟩⟩
              else none)) =
        (false, [("web", sc2)]) :=
  sameGroupName_lastJob_wins "web" ⟨4, 4, 4, 4, 0⟩ ⟨2, 1, 2, 1, 1⟩
    (by decide) (by decide)

end NomadScraper
